import Mathlib

/-!
Verification development for the AREDN-Phonebook mesh-and-phone monitoring
subsystem.  Each definition is a shallow embedding of the corresponding C
function; machine floats are modelled as exact rationals, C strings as Lean
strings, and unsigned machine arithmetic with explicit `% 2 ^ w`.
-/

namespace AREDNPhonebook

/-! ## Probe engine (src/Phonebook/src/mesh_monitor/probe_engine.c) -/

/-- Size in bytes of the packed on-wire probe packet `probe_packet_t`
(probe_engine.h): three `uint32_t` fields, a 64-byte source-node label, a
16-byte return-IP string and a `uint16_t` return port, `__attribute__((packed))`. -/
def probePacketSize : Nat := 4 + 4 + 4 + 64 + 16 + 2

/-- One entry of the probe engine's `pending_probes` table (`pending_probe_t`):
a sequence number, the `gettimeofday` send time, and the destination address. -/
structure PendingProbe where
  sequence : Nat
  sentSec : Int
  sentUsec : Int
  dstIp : String
deriving DecidableEq, Repr

/-- A datagram read from the sender socket during `calculate_probe_metrics`,
with its byte count, the fields of the echoed probe packet after `ntohl`, and
the `gettimeofday` reception time. -/
structure EchoDatagram where
  size : Nat
  sequence : Nat
  sentSec : Int
  sentUsec : Int
  recvSec : Int
  recvUsec : Int
deriving DecidableEq, Repr

/-- RTT in milliseconds as computed in `calculate_probe_metrics`:
`(sec_diff * 1000.0) + (usec_diff / 1000.0)` from the reception time and the
send timestamp embedded in the echoed packet. -/
def rttMs (d : EchoDatagram) : ℚ :=
  ((d.recvSec - d.sentSec : Int) : ℚ) * 1000 + ((d.recvUsec - d.sentUsec : Int) : ℚ) / 1000

/-- The match test of the reception loop: some pending entry has the received
sequence number and the target destination address. -/
def matchesPending (pending : List PendingProbe) (dstIp : String) (seq : Nat) : Bool :=
  pending.any fun p => p.sequence == seq && p.dstIp == dstIp

/-- The RTT sample, if any, that one received datagram contributes in
`calculate_probe_metrics`: undersized datagrams are skipped, unmatched
datagrams are skipped, and a matched sample is retained only when
`rtt_ms >= 0 && rtt_ms < 10000.0` (the sanity check at probe_engine.c:402). -/
def probeSampleOf (pending : List PendingProbe) (dstIp : String) (d : EchoDatagram) : Option ℚ :=
  if d.size < probePacketSize then none
  else if matchesPending pending dstIp d.sequence then
    if 0 ≤ rttMs d ∧ rttMs d < 10000 then some (rttMs d) else none
  else none

/-- The reception loop of `calculate_probe_metrics`: datagrams are processed
in arrival order, each contributing via `probeSampleOf`, and the loop stops
collecting once as many samples as pending probes have been retained. -/
def collectSamplesAux (pending : List PendingProbe) (dstIp : String) :
    List EchoDatagram → List ℚ → List ℚ
  | [], acc => acc
  | d :: ds, acc =>
    if pending.length ≤ acc.length then acc
    else
      match probeSampleOf pending dstIp d with
      | some r => collectSamplesAux pending dstIp ds (acc ++ [r])
      | none => collectSamplesAux pending dstIp ds acc

/-- The retained RTT samples of one probe window. -/
def collectSamples (pending : List PendingProbe) (dstIp : String)
    (ds : List EchoDatagram) : List ℚ :=
  collectSamplesAux pending dstIp ds []

/-- Sum of absolute first differences of consecutive samples, as accumulated
by the loop `for (i = 1; i < rtt_count; i++)` in `calculate_probe_metrics`. -/
def sumAbsDiffs : List ℚ → ℚ
  | a :: b :: rest => abs (b - a) + sumAbsDiffs (b :: rest)
  | _ => 0

/-- Jitter as computed in `calculate_probe_metrics`: the mean absolute first
difference when more than one sample was received, and zero otherwise. -/
def jitterOfSamples (samples : List ℚ) : ℚ :=
  if 1 < samples.length then sumAbsDiffs samples / ((samples.length : ℚ) - 1) else 0

/-- The metric fields of `probe_result_t` filled in by
`calculate_probe_metrics`. -/
structure ProbeResult where
  dstIp : String
  lossPct : ℚ
  rttMsAvg : ℚ
  jitterMs : ℚ
deriving DecidableEq, Repr

/-- The metric computation at the end of `calculate_probe_metrics`
(probe_engine.c:418-449): loss from the received/expected ratio, mean RTT and
jitter over the retained samples, with the zero-sample branch setting loss to
100 and the other metrics to 0. -/
def metricsResult (pending : List PendingProbe) (dstIp : String)
    (ds : List EchoDatagram) : ProbeResult :=
  let samples := collectSamples pending dstIp ds
  let received := samples.length
  if 0 < received then
    { dstIp := dstIp,
      lossPct := 100 * (1 - (received : ℚ) / (pending.length : ℚ)),
      rttMsAvg := samples.sum / (received : ℚ),
      jitterMs := jitterOfSamples samples }
  else
    { dstIp := dstIp, lossPct := 100, rttMsAvg := 0, jitterMs := 0 }

/-- Shallow embedding of `calculate_probe_metrics` (probe_engine.c:324-471).
Inputs: the current `pending_probes` table, the target address, and the
datagrams read from the sender socket during the window.  Returns `none` when
no probes are pending (the early `return -1`); otherwise the filled result and
the pending table after the teardown loop (probe_engine.c:451-463) that drops
this target's entries. -/
def calculate_probe_metrics (pending : List PendingProbe) (dstIp : String)
    (ds : List EchoDatagram) : Option (ProbeResult × List PendingProbe) :=
  if pending.length = 0 then none
  else some (metricsResult pending dstIp ds, pending.filter fun p => p.dstIp != dstIp)

/-! ## Probe responder (probe_engine.c:252-321) -/

/-- A datagram as seen by the responder loop: its byte count, the return
address and port read out of the payload, and the UDP source address of the
IP header (reported by `recvfrom`). -/
structure RawDatagram where
  size : Nat
  returnIp : String
  returnPort : Nat
  srcIp : String
  srcPort : Nat
deriving DecidableEq, Repr

/-- What one iteration of `probe_responder_thread` does with a received
datagram. -/
inductive ResponderAction where
  | echoTo (ip : String) (port : Nat)
  | dropInvalidSize
  | dropInvalidReturnIp
deriving DecidableEq, Repr

/-- Decimal-digit test. -/
def isDigitChar (c : Char) : Bool := decide ('0' ≤ c) && decide (c ≤ '9')

/-- Value of a string of decimal digits. -/
def digitsVal (cs : List Char) : Nat := cs.foldl (fun a c => a * 10 + (c.toNat - 48)) 0

/-- One dotted-quad component: one to three decimal digits with value at most
255. -/
def ipv4FieldOk (cs : List Char) : Bool :=
  decide (0 < cs.length) && decide (cs.length ≤ 3) && cs.all isDigitChar &&
    decide (digitsVal cs ≤ 255)

/-- Model of a successful `inet_pton(AF_INET, s, ...)` parse: exactly four
dot-separated decimal components, each at most three digits and at most 255. -/
def inetPtonV4Ok (s : String) : Bool :=
  let parts := s.data.splitOn '.'
  decide (parts.length = 4) && parts.all ipv4FieldOk

/-- Shallow embedding of one iteration of `probe_responder_thread`: datagrams
smaller than a probe packet are counted invalid and dropped; otherwise the
return address is taken from the payload, and if `inet_pton` rejects it the
datagram is dropped without a reply; otherwise the packet is echoed to the
embedded return address and port (never to the UDP source address). -/
def probe_responder_step (d : RawDatagram) : ResponderAction :=
  if d.size < probePacketSize then .dropInvalidSize
  else if inetPtonV4Ok d.returnIp then .echoTo d.returnIp d.returnPort
  else .dropInvalidReturnIp

/-- The responder's `invalid_size_count` after processing a list of datagrams. -/
def invalidSizeCount (ds : List RawDatagram) : Nat :=
  (ds.filter fun d => d.size < probePacketSize).length

/-! ## Self-health monitor (src/Phonebook/src/software_health/software_health.c) -/

/-- One slot of `g_thread_health`: a slot with `tid != 0` is a registered
thread. -/
structure ThreadHealth where
  tid : Nat
  isResponsive : Bool
deriving DecidableEq, Repr

/-- The health-monitor state read by `calculate_health_score`:
the `health_enabled` flag, the registered-thread slots, and the fields of
`g_memory_health`, `g_process_health` and `g_error_tracker` that the score
consumes. -/
structure HealthState where
  enabled : Bool
  threads : List ThreadHealth
  leakSuspected : Bool
  crashCount24h : Nat
  restartCount : Nat
  sipErrorsPerHour : Nat
  fetchFailuresPerHour : Nat
  probeFailuresPerHour : Nat
deriving DecidableEq, Repr

/-- `get_hourly_error_rate` (software_health.c:416-426): the sum of the three
per-hour error counters, or 0 when the monitor is disabled. -/
def get_hourly_error_rate (s : HealthState) : Nat :=
  if s.enabled then s.sipErrorsPerHour + s.fetchFailuresPerHour + s.probeFailuresPerHour else 0

/-- The number of registered, non-responsive thread slots (the loop at
software_health.c:467-471). -/
def unresponsiveThreadCount (s : HealthState) : Nat :=
  (s.threads.filter fun t => t.tid != 0 && !t.isResponsive).length

/-- `calculate_health_score` (software_health.c:461-490): start from 100,
deduct 20 per non-responsive registered thread, 15 for a suspected leak,
10 per 24-hour crash, 10 when the restart count exceeds 5, and 1 per hourly
error, then clamp below at 0 with `fmax_simple`.  Returns 100 when the
monitor is disabled. -/
def calculate_health_score (s : HealthState) : ℚ :=
  if s.enabled then
    max 0 (100 - 20 * (unresponsiveThreadCount s : ℚ)
             - (if s.leakSuspected then 15 else 0)
             - 10 * (s.crashCount24h : ℚ)
             - (if 5 < s.restartCount then 10 else 0)
             - (get_hourly_error_rate s : ℚ))
  else 100

/-- `is_system_healthy` (software_health.c:492-496): true when disabled,
otherwise the score is at least 80. -/
def is_system_healthy (s : HealthState) : Bool :=
  if s.enabled then decide (80 ≤ calculate_health_score s) else true

/-! ## Memory-leak heuristic (software_health.c:316-383) -/

/-- The fields of `g_memory_health` (all RSS values in bytes; the growth rate
in MB per hour). -/
structure MemoryHealth where
  initialRss : Nat
  currentRss : Nat
  peakRss : Nat
  lastCheck : Int
  lastRss : Nat
  growthRateMBPerHour : ℚ
  leakSuspected : Bool
deriving DecidableEq, Repr

/-- `detect_memory_leak` (software_health.c:376-383): a leak is suspected when
`current_rss > initial_rss * 1.5` and the growth rate exceeds 0.1 MB/h; false
when the monitor is disabled. -/
def detect_memory_leak (enabled : Bool) (m : MemoryHealth) (currentRss : Nat) : Bool :=
  enabled && decide ((m.initialRss : ℚ) * (3 / 2) < (currentRss : ℚ))
          && decide ((1 : ℚ) / 10 < m.growthRateMBPerHour)

/-- `size_t` subtraction: `a - b` wrapping modulo `2 ^ 64`, as in the
expression `(float)(current_rss - g_memory_health.last_rss)`. -/
def sizeTSub (a b : Nat) : Nat := (a % 2 ^ 64 + (2 ^ 64 - b % 2 ^ 64)) % 2 ^ 64

/-- The growth rate after one sample (software_health.c:330-337): recomputed
only when a previous sample exists (`last_check > 0`) and time has advanced
(`elapsed > 0`); otherwise the previous value is kept. -/
def updatedGrowthRate (m : MemoryHealth) (currentRss : Nat) (now : Int) : ℚ :=
  if 0 < m.lastCheck ∧ 0 < now - m.lastCheck then
    ((sizeTSub currentRss m.lastRss : ℚ) / 1024 / 1024) *
      (3600 / ((now - m.lastCheck : Int) : ℚ))
  else m.growthRateMBPerHour

/-- `monitor_memory_usage` (software_health.c:316-356) as a state transformer:
update the current and peak RSS, recompute the growth rate when a previous
sample exists and time has advanced, recompute `leak_suspected` from
`detect_memory_leak` on the updated state, then record the sample time and
value. -/
def monitor_memory_usage (enabled : Bool) (m : MemoryHealth) (currentRss : Nat)
    (now : Int) : MemoryHealth :=
  if enabled then
    { initialRss := m.initialRss,
      currentRss := currentRss,
      peakRss := if m.peakRss < currentRss then currentRss else m.peakRss,
      lastCheck := now,
      lastRss := currentRss,
      growthRateMBPerHour := updatedGrowthRate m currentRss now,
      leakSuspected := detect_memory_leak enabled
        { m with currentRss := currentRss,
                 peakRss := if m.peakRss < currentRss then currentRss else m.peakRss,
                 growthRateMBPerHour := updatedGrowthRate m currentRss now }
        currentRss }
  else m

/-! ## Agent-discovery cache (src/Phonebook/src/mesh_monitor/agent_discovery.c)

`save_agent_cache` prints each entry with `fprintf(fp, "%s,%s,%ld\n", ip,
node, last_seen)`; `load_agent_cache` reads lines with `fgets` and parses each
with `sscanf(line, "%[^,],%[^,],%ld", ...) == 3`, capping the cache at
`MAX_DISCOVERED_AGENTS`.  The decimal rendering of `%ld` and the scan of
`%ld` are modelled below. -/

/-- `MAX_DISCOVERED_AGENTS` (agent_discovery.h). -/
def MAX_DISCOVERED_AGENTS : Nat := 100

/-- `discovered_agent_t` (agent_discovery.h): mesh address, node label,
last-seen epoch, active flag. -/
structure DiscoveredAgent where
  ip : String
  node : String
  lastSeen : Int
  isActive : Bool
deriving DecidableEq, Repr

/-- The decimal digit character of `n % 10`. -/
def digitOfNat (n : Nat) : Char := Char.ofNat (n % 10 + 48)

/-- Least-significant-first decimal digits of `n`, with explicit fuel (the
fuel `n + 1` always suffices). -/
def natDigitsRevAux : Nat → Nat → List Char
  | 0, _ => []
  | fuel + 1, n => if n < 10 then [digitOfNat n] else digitOfNat n :: natDigitsRevAux fuel (n / 10)

/-- Decimal rendering of a natural number. -/
def natDecimal (n : Nat) : List Char := (natDigitsRevAux (n + 1) n).reverse

/-- Decimal rendering of a C `long`, as produced by `fprintf` `%ld`. -/
def longDecimal (i : Int) : List Char :=
  if i < 0 then '-' :: natDecimal i.natAbs else natDecimal i.toNat

/-- The whitespace characters skipped by `sscanf` numeric conversions. -/
def isSpaceChar (c : Char) : Bool :=
  c == ' ' || c == '\t' || c == '\n' || c == '\r' || c == '\x0b' || c == '\x0c'

/-- Parse a maximal nonempty run of leading decimal digits. -/
def parseNatDigits (cs : List Char) : Option Nat :=
  let ds := cs.takeWhile isDigitChar
  if ds.isEmpty then none else some (digitsVal ds)

/-- The `%ld` conversion of `sscanf`: skip whitespace, an optional sign, then
at least one decimal digit; any remaining characters are left unconsumed. -/
def parseLongFrom (cs : List Char) : Option Int :=
  match cs.dropWhile isSpaceChar with
  | [] => none
  | c :: rest =>
    if c = '-' then (parseNatDigits rest).map fun n => -(n : Int)
    else if c = '+' then (parseNatDigits rest).map fun n => (n : Int)
    else (parseNatDigits (c :: rest)).map fun n => (n : Int)

/-- `sscanf(line, "%[^,],%[^,],%ld", ip, node, &timestamp) == 3`: two
nonempty comma-free fields separated by literal commas, then a long.  Trailing
characters after the number (for example the newline) are ignored. -/
def scanCacheLine (cs : List Char) : Option (List Char × List Char × Int) :=
  if (cs.takeWhile (· != ',')).isEmpty then none
  else
    match cs.dropWhile (· != ',') with
    | ',' :: r2 =>
      if (r2.takeWhile (· != ',')).isEmpty then none
      else
        match r2.dropWhile (· != ',') with
        | ',' :: r4 =>
          (parseLongFrom r4).map fun t => (cs.takeWhile (· != ','), r2.takeWhile (· != ','), t)
        | _ => none
    | _ => none

/-- The entry built from one successfully parsed cache line
(agent_discovery.c:241-246): `strncpy` truncates the address to 15 and the
node label to 63 characters, and the loaded entry is marked active. -/
def agentOfLine (cs : List Char) : Option DiscoveredAgent :=
  (scanCacheLine cs).map fun x =>
    { ip := String.mk (x.1.take 15), node := String.mk (x.2.1.take 63),
      lastSeen := x.2.2, isActive := true }

/-- The line splitting performed by the `fgets` loop of `load_agent_cache`:
each chunk ends at a newline, and the chunks are parsed without the
terminating newline (which `sscanf`'s `%ld` would ignore anyway). -/
def splitLines : List Char → List (List Char)
  | [] => [[]]
  | c :: rest =>
    if c = '\n' then [] :: splitLines rest
    else
      match splitLines rest with
      | [] => [[c]]
      | l :: ls => (c :: l) :: ls

/-- `load_agent_cache` (agent_discovery.c:225-253) on the file contents:
split into lines, keep the entries of the lines that `sscanf` accepts, and
stop once `MAX_DISCOVERED_AGENTS` entries are loaded. -/
def load_agent_cache (contents : List Char) : List DiscoveredAgent :=
  ((splitLines contents).filterMap agentOfLine).take MAX_DISCOVERED_AGENTS

/-- The characters printed for one entry by `fprintf(fp, "%s,%s,%ld\n", ...)`,
without the terminating newline. -/
def cacheLine (a : DiscoveredAgent) : List Char :=
  a.ip.data ++ ',' :: (a.node.data ++ ',' :: longDecimal a.lastSeen)

/-- `save_agent_cache` (agent_discovery.c:255-272): one `ip,node,last_seen`
line per entry, each terminated by a newline. -/
def save_agent_cache (cache : List DiscoveredAgent) : List Char :=
  cache.foldr (fun a acc => cacheLine a ++ '\n' :: acc) []

/-! ## Atomic JSON publication (phone_quality_monitor.c, software_health.c) -/

/-- A file-system operation performed by a JSON writer.  `openWrite`
represents `fopen(path, "w")`, which truncates the file at `path` in place. -/
inductive FsOp where
  | openWrite (path : String)
  | writeStr (path : String) (content : String)
  | closeFile (path : String)
  | renameFile (src dst : String)
  | unlinkFile (path : String)
deriving DecidableEq, Repr

/-- The published path of `write_quality_json`. -/
def qualityJsonPath : String := "/tmp/phone_quality.json"

/-- The trace of file operations of `write_quality_json`
(phone_quality_monitor.c:280-328): open the final path for writing, print the
serialised records, close.  `openOk` is whether `fopen` succeeded; `content`
abstracts the serialised document. -/
def write_quality_json (openOk : Bool) (content : String) : List FsOp :=
  if openOk then
    [.openWrite qualityJsonPath, .writeStr qualityJsonPath content, .closeFile qualityJsonPath]
  else []

/-- The trace of file operations of `export_crash_to_json`
(software_health.c:976-1039).  With an empty crash history it opens the final
path directly and prints `[]`; with a non-empty history it prints the
serialised array (`content`) to `<filepath>.tmp`, closes, renames onto
`filepath`, and unlinks the temp file when the rename fails. -/
def export_crash_to_json (enabled : Bool) (filepath : String) (historyLen : Nat)
    (emptyOpenOk tmpOpenOk renameOk : Bool) (content : String) : List FsOp :=
  if enabled then
    if historyLen = 0 then
      if emptyOpenOk then
        [.openWrite filepath, .writeStr filepath "[]\n", .closeFile filepath]
      else []
    else
      if tmpOpenOk then
        [.openWrite (filepath ++ ".tmp"), .writeStr (filepath ++ ".tmp") content,
         .closeFile (filepath ++ ".tmp"), .renameFile (filepath ++ ".tmp") filepath] ++
          (if renameOk then [] else [.unlinkFile (filepath ++ ".tmp")])
      else []
  else []

/-- Whether an operation opens or writes `path` in place (the mutations that
can leave a partially written file at `path`). -/
def opTouchesDirectly (op : FsOp) (path : String) : Bool :=
  match op with
  | .openWrite p => p == path
  | .writeStr p _ => p == path
  | _ => false

/-- A trace publishes `path` atomically when it never opens or writes `path`
in place and any rename onto `path` comes from `path ++ ".tmp"`. -/
def publishesAtomically (trace : List FsOp) (path : String) : Prop :=
  (∀ op ∈ trace, opTouchesDirectly op path = false) ∧
  (∀ src dst, FsOp.renameFile src dst ∈ trace → dst = path → src = path ++ ".tmp")

/-! ## VoIP media probe (src/Phonebook/src/sip_quality_lib.c) -/

/-- `sizeof(rtp_header_t)`: two bytes of flags, a `uint16_t` sequence number,
and two `uint32_t` fields. -/
def rtpHeaderSize : Nat := 1 + 1 + 2 + 4 + 4

/-- A datagram read from the RTP socket by `drain_rtp_packets`: its byte
count, the header fields after `ntohs`/`ntohl`, and the arrival time in
milliseconds. -/
structure RtpPacketIn where
  len : Nat
  seq : Nat
  timestamp : Nat
  arrivalMs : ℚ
deriving DecidableEq, Repr

/-- `rtp_stats_t` (sip_quality_lib.c:403-412), without the unused
`prev_arrival` field. -/
structure RtpStats where
  initialized : Bool
  firstSeq : Nat
  highestSeq : Nat
  packetsReceived : Nat
  prevTimestamp : Nat
  prevTransit : ℚ
  jitter : ℚ
deriving DecidableEq, Repr

/-- The zeroed statistics (`memset(&rtp_stats, 0, ...)`). -/
def initRtpStats : RtpStats :=
  { initialized := false, firstSeq := 0, highestSeq := 0, packetsReceived := 0,
    prevTimestamp := 0, prevTransit := 0, jitter := 0 }

/-- The wrap-around test `(int16_t)(seq - highest) > 0` on `uint16_t` values. -/
def seqDiffPos (seq highest : Nat) : Bool :=
  let m := (seq % 65536 + (65536 - highest % 65536)) % 65536
  decide (0 < m) && decide (m < 32768)

/-- `process_rtp_packet` (sip_quality_lib.c:415-456): packets shorter than the
RTP header are ignored; the first valid packet initialises the statistics; a
later packet bumps the highest sequence on positive signed difference,
increments the packet count, and updates the RFC 3550 A.8 jitter estimator. -/
def process_rtp_packet (st : RtpStats) (p : RtpPacketIn) : RtpStats :=
  if p.len < rtpHeaderSize then st
  else if st.initialized = false then
    { initialized := true, firstSeq := p.seq, highestSeq := p.seq, packetsReceived := 1,
      prevTimestamp := p.timestamp, prevTransit := p.arrivalMs - (p.timestamp : ℚ) / 8,
      jitter := 0 }
  else
    let transit := p.arrivalMs - (p.timestamp : ℚ) / 8
    let d := abs (transit - st.prevTransit)
    { initialized := true,
      firstSeq := st.firstSeq,
      highestSeq := if seqDiffPos p.seq st.highestSeq then p.seq else st.highestSeq,
      packetsReceived := st.packetsReceived + 1,
      prevTimestamp := p.timestamp,
      prevTransit := transit,
      jitter := st.jitter + (d - st.jitter) / 16 }

/-- `probe_status_t` (sip_quality_lib.h). -/
inductive ProbeStatus where
  | SUCCESS
  | BUSY
  | NO_RR
  | SIP_TIMEOUT
  | SIP_ERROR
  | NO_ANSWER
deriving DecidableEq, Repr

/-- The statistics after the burst and drain phases: `drain_rtp_packets`
processes every received datagram in order. -/
def statsAfterDrain (ps : List RtpPacketIn) : RtpStats :=
  ps.foldl process_rtp_packet initRtpStats

/-- The status classification at the end of `test_phone_quality`
(sip_quality_lib.c:662-687): `SUCCESS` when the statistics were initialised
and at least 5 RTP packets were received, else `NO_RR`. -/
def burstStatus (st : RtpStats) : ProbeStatus :=
  if st.initialized && decide (5 ≤ st.packetsReceived) then .SUCCESS else .NO_RR

/-- The number of datagrams long enough to be processed as RTP packets. -/
def validRtpCount (ps : List RtpPacketIn) : Nat :=
  (ps.filter fun p => rtpHeaderSize ≤ p.len).length

/-- The total deduction applied by `calculate_health_score`: 20 per
non-responsive registered thread, 15 for a suspected leak, 10 per 24-hour
crash, 10 when the restart count exceeds 5, and 1 per error in the current
hour. -/
def healthDeductions (s : HealthState) : ℚ :=
  20 * (unresponsiveThreadCount s : ℚ) + (if s.leakSuspected then 15 else 0)
    + 10 * (s.crashCount24h : ℚ) + (if 5 < s.restartCount then 10 else 0)
    + (get_hourly_error_rate s : ℚ)

/-- Scenario S4 of the specification: four registered threads with one
unresponsive, a suspected leak, two 24-hour crashes, six restarts, and three
errors in the current hour. -/
def s4state : HealthState :=
  { enabled := true,
    threads := [⟨1, false⟩, ⟨2, true⟩, ⟨3, true⟩, ⟨4, true⟩],
    leakSuspected := true,
    crashCount24h := 2,
    restartCount := 6,
    sipErrorsPerHour := 1,
    fetchFailuresPerHour := 1,
    probeFailuresPerHour := 1 }

/-! ## Helper lemmas -/

theorem sumAbsDiffs_nonneg : ∀ l : List ℚ, 0 ≤ sumAbsDiffs l
  | [] => by simp [sumAbsDiffs]
  | [_] => by simp [sumAbsDiffs]
  | a :: b :: rest => by
    have ih := sumAbsDiffs_nonneg (b :: rest)
    have habs := abs_nonneg (b - a)
    simp only [sumAbsDiffs]
    linarith

theorem jitterOfSamples_nonneg (l : List ℚ) : 0 ≤ jitterOfSamples l := by
  unfold jitterOfSamples
  split
  · next h =>
    apply div_nonneg (sumAbsDiffs_nonneg l)
    have h1 : (1 : ℚ) < (l.length : ℚ) := by exact_mod_cast h
    linarith
  · exact le_refl 0

theorem jitterOfSamples_single (l : List ℚ) (h : l.length = 1) : jitterOfSamples l = 0 := by
  unfold jitterOfSamples
  rw [h]
  norm_num

theorem calculate_some (pending : List PendingProbe) (dstIp : String)
    (ds : List EchoDatagram) (res : ProbeResult) (rest : List PendingProbe)
    (h : calculate_probe_metrics pending dstIp ds = some (res, rest)) :
    res = metricsResult pending dstIp ds ∧
    rest = pending.filter (fun p => p.dstIp != dstIp) ∧ pending ≠ [] := by
  unfold calculate_probe_metrics at h
  split at h
  · exact absurd h (by simp)
  · next hne =>
    refine ⟨?_, ?_, ?_⟩
    · exact ((Prod.mk.injEq _ _ _ _).mp (Option.some.inj h)).1.symm
    · exact ((Prod.mk.injEq _ _ _ _).mp (Option.some.inj h)).2.symm
    · intro hnil
      exact hne (by simp [hnil])

/-! ## C2 — loss percentage formula -/

/-- Claim C2: for every probe window in which at least one probe is pending,
`calculate_probe_metrics` sets the loss percentage to exactly
`100 * (1 - received / sent)`, where `sent` is the number of probes pending
in the window and `received` is the number of retained samples; when no
samples are received the loss percentage is 100. -/
theorem probe_loss_formula (pending : List PendingProbe) (dstIp : String)
    (ds : List EchoDatagram) (res : ProbeResult) (rest : List PendingProbe)
    (h : calculate_probe_metrics pending dstIp ds = some (res, rest)) :
    res.lossPct =
      100 * (1 - ((collectSamples pending dstIp ds).length : ℚ) / (pending.length : ℚ)) ∧
    ((collectSamples pending dstIp ds).length = 0 → res.lossPct = 100) := by
  obtain ⟨hres, -, -⟩ := calculate_some pending dstIp ds res rest h
  subst hres
  unfold metricsResult
  by_cases hrec : 0 < (collectSamples pending dstIp ds).length
  · rw [if_pos hrec]
    exact ⟨rfl, fun h0 => absurd h0 (by omega)⟩
  · rw [if_neg hrec]
    have h0 : (collectSamples pending dstIp ds).length = 0 := by omega
    constructor
    · rw [h0]
      norm_num
    · intro _
      rfl

/-- Witness for `probe_loss_formula` at a concrete window. -/
theorem probe_loss_formula_witness :
    calculate_probe_metrics [⟨0, 0, 0, "10.0.0.1"⟩] "10.0.0.1" [] =
      some (⟨"10.0.0.1", 100, 0, 0⟩, []) ∧
    (⟨"10.0.0.1", 100, 0, 0⟩ : ProbeResult).lossPct =
      100 * (1 - ((collectSamples [⟨0, 0, 0, "10.0.0.1"⟩] "10.0.0.1" []).length : ℚ) /
        (([⟨0, 0, 0, "10.0.0.1"⟩] : List PendingProbe).length : ℚ)) := by
  refine ⟨by decide, ?_⟩
  exact (probe_loss_formula [⟨0, 0, 0, "10.0.0.1"⟩] "10.0.0.1" [] ⟨"10.0.0.1", 100, 0, 0⟩ []
    (by decide)).1

/-! ## C6 — jitter is the mean absolute first difference -/

/-- Claim C6: for the RTT samples received in one probe window, the computed
jitter equals the sum of absolute differences of consecutive samples divided
by `n - 1`; it is always non-negative and is zero when exactly one sample is
received. -/
theorem probe_jitter_spec (pending : List PendingProbe) (dstIp : String)
    (ds : List EchoDatagram) (res : ProbeResult) (rest : List PendingProbe)
    (h : calculate_probe_metrics pending dstIp ds = some (res, rest)) :
    (1 < (collectSamples pending dstIp ds).length →
      res.jitterMs = sumAbsDiffs (collectSamples pending dstIp ds) /
        (((collectSamples pending dstIp ds).length : ℚ) - 1)) ∧
    0 ≤ res.jitterMs ∧
    ((collectSamples pending dstIp ds).length = 1 → res.jitterMs = 0) := by
  obtain ⟨hres, -, -⟩ := calculate_some pending dstIp ds res rest h
  subst hres
  unfold metricsResult
  by_cases hrec : 0 < (collectSamples pending dstIp ds).length
  · rw [if_pos hrec]
    refine ⟨?_, ?_, ?_⟩
    · intro hgt
      show jitterOfSamples _ = _
      unfold jitterOfSamples
      rw [if_pos hgt]
    · exact jitterOfSamples_nonneg _
    · intro h1
      exact jitterOfSamples_single _ h1
  · rw [if_neg hrec]
    exact ⟨fun hgt => absurd hgt (by omega), le_refl 0, fun _ => rfl⟩

/-- Witness for `probe_jitter_spec` at a concrete window. -/
theorem probe_jitter_spec_witness :
    calculate_probe_metrics [⟨0, 0, 0, "10.0.0.2"⟩] "10.0.0.2" [] =
      some (⟨"10.0.0.2", 100, 0, 0⟩, []) ∧
    0 ≤ (⟨"10.0.0.2", 100, 0, 0⟩ : ProbeResult).jitterMs := by
  refine ⟨by decide, ?_⟩
  exact (probe_jitter_spec [⟨0, 0, 0, "10.0.0.2"⟩] "10.0.0.2" [] ⟨"10.0.0.2", 100, 0, 0⟩ []
    (by decide)).2.1

/-! ## C10 — teardown removes exactly the target's entries -/

/-- Claim C10: when `calculate_probe_metrics` runs to completion, the teardown
removes exactly the pending entries whose destination equals the target; every
other entry survives unchanged and in its original relative order (the
surviving table is the order-preserving filter of the original). -/
theorem teardown_removes_exactly_target (pending : List PendingProbe) (dstIp : String)
    (ds : List EchoDatagram) (h : pending ≠ []) :
    calculate_probe_metrics pending dstIp ds =
      some (metricsResult pending dstIp ds, pending.filter fun p => p.dstIp != dstIp) ∧
    (pending.filter fun p => p.dstIp != dstIp).Sublist pending ∧
    (∀ p : PendingProbe,
      p ∈ pending.filter (fun p => p.dstIp != dstIp) ↔ p ∈ pending ∧ p.dstIp ≠ dstIp) := by
  refine ⟨?_, List.filter_sublist _, ?_⟩
  · unfold calculate_probe_metrics
    rw [if_neg (fun h0 => h (List.length_eq_zero.mp h0))]
  · intro p
    simp [List.mem_filter]

/-- Witness for `teardown_removes_exactly_target`: a two-target table keeps the
other target's entry. -/
theorem teardown_removes_exactly_target_witness :
    calculate_probe_metrics [⟨0, 0, 0, "10.0.0.1"⟩, ⟨0, 0, 0, "10.0.0.2"⟩] "10.0.0.1" [] =
      some (metricsResult [⟨0, 0, 0, "10.0.0.1"⟩, ⟨0, 0, 0, "10.0.0.2"⟩] "10.0.0.1" [],
        ([⟨0, 0, 0, "10.0.0.1"⟩, ⟨0, 0, 0, "10.0.0.2"⟩] : List PendingProbe).filter
          fun p => p.dstIp != "10.0.0.1") := by
  exact (teardown_removes_exactly_target [⟨0, 0, 0, "10.0.0.1"⟩, ⟨0, 0, 0, "10.0.0.2"⟩]
    "10.0.0.1" [] (by decide)).1

/-! ## C4 — which matched samples are retained -/

/-- Counterexample to claim C4 as stated: a matched echo whose RTT sample is
-5 ms has absolute value far below 10 seconds, yet `calculate_probe_metrics`
discards it (the sanity check also rejects negative samples). -/
theorem rtt_filter_counterexample :
    probeSampleOf [⟨0, 1000, 500000, "10.0.0.1"⟩] "10.0.0.1"
        ⟨94, 0, 1000, 500000, 1000, 495000⟩ = none ∧
    rttMs ⟨94, 0, 1000, 500000, 1000, 495000⟩ = -5 ∧
    abs (rttMs ⟨94, 0, 1000, 500000, 1000, 495000⟩) < 10000 ∧
    probePacketSize ≤ (94 : Nat) ∧
    matchesPending [⟨0, 1000, 500000, "10.0.0.1"⟩] "10.0.0.1" 0 = true := by
  have hr : rttMs ⟨94, 0, 1000, 500000, 1000, 495000⟩ = -5 := by
    unfold rttMs
    norm_num
  refine ⟨?_, hr, ?_, by decide, by decide⟩
  · unfold probeSampleOf
    rw [if_neg (by decide), if_pos (by decide), if_neg ?_]
    rw [hr]
    norm_num
  · rw [hr]
    norm_num

/-- Claim C4 amended: a received echo matched to a pending probe contributes
an RTT sample if and only if the sample is non-negative and below 10 seconds;
samples that are negative or at least 10 s are discarded and count as lost. -/
theorem rtt_filter_amended (pending : List PendingProbe) (dstIp : String) (d : EchoDatagram)
    (hsize : probePacketSize ≤ d.size)
    (hmatch : matchesPending pending dstIp d.sequence = true) :
    (probeSampleOf pending dstIp d).isSome ↔ (0 ≤ rttMs d ∧ rttMs d < 10000) := by
  unfold probeSampleOf
  rw [if_neg (by omega), if_pos hmatch]
  by_cases hr : 0 ≤ rttMs d ∧ rttMs d < 10000
  · simp [hr]
  · simp [hr]

/-- Witness for `rtt_filter_amended` at a concrete matched echo with a 5 ms
sample. -/
theorem rtt_filter_amended_witness :
    (probeSampleOf [⟨0, 1000, 500000, "10.0.0.1"⟩] "10.0.0.1"
        ⟨94, 0, 1000, 500000, 1000, 505000⟩).isSome ∧
    (0 : ℚ) ≤ rttMs ⟨94, 0, 1000, 500000, 1000, 505000⟩ := by
  have hr : rttMs ⟨94, 0, 1000, 500000, 1000, 505000⟩ = 5 := by
    unfold rttMs
    norm_num
  constructor
  · exact (rtt_filter_amended [⟨0, 1000, 500000, "10.0.0.1"⟩] "10.0.0.1"
      ⟨94, 0, 1000, 500000, 1000, 505000⟩ (by decide) (by decide)).mpr
      ⟨by rw [hr]; norm_num, by rw [hr]; norm_num⟩
  · rw [hr]
    norm_num

/-! ## C5 — health score arithmetic -/

/-- Claim C5: with the monitor enabled, the health score equals 100 minus the
deductions, clamped to the interval 0 to 100; the score always lies in that
interval; `is_system_healthy` holds exactly when the score is at least 80; and
in the S4 scenario the score is 32 and the system is unhealthy. -/
theorem health_score_spec :
    (∀ s : HealthState, s.enabled = true →
      calculate_health_score s = max 0 (min 100 (100 - healthDeductions s)) ∧
      0 ≤ calculate_health_score s ∧ calculate_health_score s ≤ 100 ∧
      (is_system_healthy s = true ↔ 80 ≤ calculate_health_score s)) ∧
    calculate_health_score s4state = 32 ∧ is_system_healthy s4state = false := by
  have hded : ∀ s : HealthState, 0 ≤ healthDeductions s := by
    intro s
    unfold healthDeductions
    have h1 : (0 : ℚ) ≤ (unresponsiveThreadCount s : ℚ) := Nat.cast_nonneg _
    have h2 : (0 : ℚ) ≤ (s.crashCount24h : ℚ) := Nat.cast_nonneg _
    have h3 : (0 : ℚ) ≤ (get_hourly_error_rate s : ℚ) := Nat.cast_nonneg _
    have h4 : (0 : ℚ) ≤ (if s.leakSuspected then (15 : ℚ) else 0) := by positivity
    have h5 : (0 : ℚ) ≤ (if 5 < s.restartCount then (10 : ℚ) else 0) := by positivity
    linarith
  have hform : ∀ s : HealthState, s.enabled = true →
      calculate_health_score s = max 0 (100 - healthDeductions s) := by
    intro s hs
    unfold calculate_health_score healthDeductions
    rw [if_pos hs]
    congr 1
    ring
  have hmain : ∀ s : HealthState, s.enabled = true →
      calculate_health_score s = max 0 (min 100 (100 - healthDeductions s)) ∧
      0 ≤ calculate_health_score s ∧ calculate_health_score s ≤ 100 ∧
      (is_system_healthy s = true ↔ 80 ≤ calculate_health_score s) := by
    intro s hs
    have hd := hded s
    have hf := hform s hs
    have hmin : min 100 (100 - healthDeductions s) = 100 - healthDeductions s :=
      min_eq_right (by linarith)
    refine ⟨by rw [hf, hmin], by rw [hf]; exact le_max_left 0 _, ?_, ?_⟩
    · rw [hf]
      exact max_le (by norm_num) (by linarith)
    · unfold is_system_healthy
      rw [if_pos hs]
      simp [decide_eq_true_iff]
  have hcount : unresponsiveThreadCount s4state = 1 := by decide
  have hrate : get_hourly_error_rate s4state = 3 := by decide
  have hs4 : calculate_health_score s4state = 32 := by
    unfold calculate_health_score
    rw [if_pos (show s4state.enabled = true from rfl), hcount, hrate,
        if_pos (show s4state.leakSuspected = true from rfl),
        if_pos (show 5 < s4state.restartCount by decide),
        show s4state.crashCount24h = 2 from rfl]
    rw [max_eq_right (by norm_num)]
    norm_num
  refine ⟨hmain, hs4, ?_⟩
  unfold is_system_healthy
  rw [if_pos (show s4state.enabled = true from rfl), hs4]
  simp only [decide_eq_false_iff_not]
  norm_num

/-- Witness for `health_score_spec`: the universal part applied at the S4
state. -/
theorem health_score_spec_witness :
    s4state.enabled = true ∧
    (calculate_health_score s4state = max 0 (min 100 (100 - healthDeductions s4state)) ∧
      0 ≤ calculate_health_score s4state ∧ calculate_health_score s4state ≤ 100 ∧
      (is_system_healthy s4state = true ↔ 80 ≤ calculate_health_score s4state)) :=
  ⟨rfl, health_score_spec.1 s4state rfl⟩

/-! ## C9 — memory-leak flag -/

/-- Claim C9: after every memory sample with the monitor enabled, the
`leak_suspected` flag is true exactly when the sampled RSS exceeds 1.5 times
the initial RSS and the measured growth rate exceeds 0.1 MB per hour. -/
theorem leak_flag_spec (m : MemoryHealth) (cur : Nat) (now : Int) :
    (monitor_memory_usage true m cur now).leakSuspected = true ↔
      ((m.initialRss : ℚ) * (3 / 2) < (cur : ℚ) ∧
       (1 : ℚ) / 10 < (monitor_memory_usage true m cur now).growthRateMBPerHour) := by
  unfold monitor_memory_usage
  rw [if_pos (show (true : Bool) = true from rfl)]
  unfold detect_memory_leak
  simp [Bool.and_eq_true, decide_eq_true_iff]

/-! ## C7 — responder echo target -/

/-- Counterexample to claim C7 as stated: a datagram of full probe-packet size
whose embedded return address does not parse as an IPv4 address is dropped
without a reply rather than echoed. -/
theorem responder_echo_counterexample :
    probe_responder_step ⟨94, "not-an-ip", 4500, "10.0.0.9", 12345⟩ =
      ResponderAction.dropInvalidReturnIp ∧
    probePacketSize ≤ (94 : Nat) := by
  exact ⟨by decide, by decide⟩

/-- Claim C7 amended: a datagram smaller than a probe packet is counted as
invalid and dropped; a datagram of at least probe-packet size is echoed to the
return address and port encoded inside the payload if and only if that address
parses as an IPv4 address, and is dropped without a reply otherwise; any echo
goes to the embedded return address, never to the UDP source address. -/
theorem responder_echo_amended (d : RawDatagram) :
    (probe_responder_step d = ResponderAction.dropInvalidSize ↔ d.size < probePacketSize) ∧
    (probe_responder_step d = ResponderAction.echoTo d.returnIp d.returnPort ↔
      (probePacketSize ≤ d.size ∧ inetPtonV4Ok d.returnIp = true)) ∧
    (∀ ip port, probe_responder_step d = ResponderAction.echoTo ip port →
      ip = d.returnIp ∧ port = d.returnPort) ∧
    ((probePacketSize ≤ d.size ∧ inetPtonV4Ok d.returnIp = false) →
      probe_responder_step d = ResponderAction.dropInvalidReturnIp) := by
  unfold probe_responder_step
  by_cases h1 : d.size < probePacketSize
  · rw [if_pos h1]
    refine ⟨⟨fun _ => h1, fun _ => rfl⟩, ?_, ?_, ?_⟩
    · constructor
      · intro hcontra
        exact absurd hcontra (by simp)
      · intro hc
        exact absurd h1 (Nat.not_lt.mpr hc.1)
    · intro ip port hcontra
      exact absurd hcontra (by simp)
    · intro hc
      exact absurd h1 (Nat.not_lt.mpr hc.1)
  · rw [if_neg h1]
    by_cases h2 : inetPtonV4Ok d.returnIp = true
    · rw [if_pos h2]
      refine ⟨?_, ?_, ?_, ?_⟩
      · constructor
        · intro hcontra
          exact absurd hcontra (by simp)
        · intro hc
          exact absurd hc h1
      · exact ⟨fun _ => ⟨Nat.le_of_not_lt h1, h2⟩, fun _ => rfl⟩
      · intro ip port heq
        have hinj := ResponderAction.echoTo.inj heq
        exact ⟨hinj.1.symm, hinj.2.symm⟩
      · intro hc
        rw [h2] at hc
        exact absurd hc.2 (by simp)
    · rw [if_neg h2]
      refine ⟨?_, ?_, ?_, fun _ => rfl⟩
      · constructor
        · intro hcontra
          exact absurd hcontra (by simp)
        · intro hc
          exact absurd hc h1
      · constructor
        · intro hcontra
          exact absurd hcontra (by simp)
        · intro hc
          exact absurd hc.2 h2
      · intro ip port hcontra
        exact absurd hcontra (by simp)

/-- Witness for `responder_echo_amended`: a valid-size datagram with a
parseable return address is echoed to the payload's address and port, which
differ from the datagram's UDP source address. -/
theorem responder_echo_amended_witness :
    probe_responder_step ⟨94, "10.1.2.3", 40050, "9.9.9.9", 1⟩ =
      ResponderAction.echoTo "10.1.2.3" 40050 ∧
    ("10.1.2.3" = (⟨94, "10.1.2.3", 40050, "9.9.9.9", 1⟩ : RawDatagram).returnIp ∧
      40050 = (⟨94, "10.1.2.3", 40050, "9.9.9.9", 1⟩ : RawDatagram).returnPort) := by
  refine ⟨by decide, ?_⟩
  exact (responder_echo_amended ⟨94, "10.1.2.3", 40050, "9.9.9.9", 1⟩).2.2.1
    "10.1.2.3" 40050 (by decide)

/-! ## C8 — media probe success threshold -/

theorem drain_fold_inv : ∀ (ps : List RtpPacketIn) (st : RtpStats),
    (st.initialized = false → st.packetsReceived = 0) →
    (ps.foldl process_rtp_packet st).packetsReceived = st.packetsReceived + validRtpCount ps ∧
    (ps.foldl process_rtp_packet st).initialized =
      (st.initialized || decide (0 < validRtpCount ps))
  | [], st, _ => by simp [validRtpCount]
  | p :: ps, st, hinv => by
    by_cases hlen : p.len < rtpHeaderSize
    · have hstep : process_rtp_packet st p = st := by
        unfold process_rtp_packet
        rw [if_pos hlen]
      have hcnt : validRtpCount (p :: ps) = validRtpCount ps := by
        unfold validRtpCount
        rw [List.filter_cons_of_neg (by simpa using hlen)]
      obtain ⟨ih1, ih2⟩ := drain_fold_inv ps st hinv
      rw [List.foldl_cons, hstep, hcnt]
      exact ⟨ih1, ih2⟩
    · have hcnt : validRtpCount (p :: ps) = validRtpCount ps + 1 := by
        unfold validRtpCount
        rw [List.filter_cons_of_pos (by simpa using Nat.le_of_not_lt hlen)]
        simp [Nat.add_comm]
      by_cases hini : st.initialized = false
      · have hstep : process_rtp_packet st p =
            { initialized := true, firstSeq := p.seq, highestSeq := p.seq,
              packetsReceived := 1, prevTimestamp := p.timestamp,
              prevTransit := p.arrivalMs - (p.timestamp : ℚ) / 8, jitter := 0 } := by
          unfold process_rtp_packet
          rw [if_neg hlen, if_pos hini]
        have hpr : (process_rtp_packet st p).packetsReceived = 1 := by rw [hstep]
        have hpi : (process_rtp_packet st p).initialized = true := by rw [hstep]
        obtain ⟨ih1, ih2⟩ := drain_fold_inv ps (process_rtp_packet st p)
          (by rw [hpi]; intro h; simp at h)
        rw [List.foldl_cons, hcnt]
        constructor
        · rw [ih1, hpr, hinv hini]
          omega
        · rw [ih2, hpi, hini]
          have hp1 : (0 : Nat) < validRtpCount ps + 1 := Nat.succ_pos _
          simp [hp1]
      · have hini' : st.initialized = true := by
          cases hb : st.initialized
          · exact absurd hb hini
          · rfl
        have hstep2 : (process_rtp_packet st p).packetsReceived = st.packetsReceived + 1 ∧
            (process_rtp_packet st p).initialized = true := by
          unfold process_rtp_packet
          rw [if_neg hlen, hini']
          simp
        obtain ⟨ih1, ih2⟩ := drain_fold_inv ps (process_rtp_packet st p)
          (by rw [hstep2.2]; intro h; simp at h)
        rw [List.foldl_cons, hcnt]
        constructor
        · rw [ih1, hstep2.1]
          omega
        · rw [ih2, hstep2.2, hini']
          have hp1 : (0 : Nat) < validRtpCount ps + 1 := Nat.succ_pos _
          simp [hp1]

/-- Claim C8: a media probe that completes its RTP burst reports `SUCCESS` if
and only if at least 5 RTP packets were received from the phone during the
burst and drain phases; otherwise it reports `NO_RR`. -/
theorem media_status_spec (ps : List RtpPacketIn) :
    burstStatus (statsAfterDrain ps) = ProbeStatus.SUCCESS ↔ 5 ≤ validRtpCount ps := by
  obtain ⟨hrec, hinit⟩ := drain_fold_inv ps initRtpStats (fun _ => rfl)
  unfold burstStatus statsAfterDrain
  rw [hrec, hinit, show initRtpStats.packetsReceived = 0 from rfl,
      show initRtpStats.initialized = false from rfl]
  by_cases h5 : 5 ≤ validRtpCount ps
  · have hpos : (0 : Nat) < validRtpCount ps := by omega
    rw [if_pos (by simp [hpos, h5])]
    simp [h5]
  · rw [if_neg (by simp [h5])]
    constructor
    · intro hcontra
      exact absurd hcontra (by simp)
    · intro h
      exact absurd h h5

/-! ## C1 — atomic JSON publication -/

theorem append_tmp_ne (path : String) : (path ++ ".tmp") ≠ path := by
  intro h
  have hlen := congrArg String.length h
  rw [String.length_append] at hlen
  have h4 : String.length ".tmp" = 4 := rfl
  omega

/-- Counterexample to claim C1 as stated: `write_quality_json` opens
`/tmp/phone_quality.json` for writing in place (no temp file, no rename), and
`export_crash_to_json` with an empty crash history writes the empty array
directly to the final path. -/
theorem json_publish_counterexample :
    ¬ publishesAtomically (write_quality_json true "x") qualityJsonPath ∧
    ¬ publishesAtomically
        (export_crash_to_json true "/tmp/meshmon_crashes.json" 0 true true true "x")
        "/tmp/meshmon_crashes.json" := by
  constructor
  · intro hatomic
    have h := hatomic.1 (FsOp.openWrite qualityJsonPath) (by simp [write_quality_json])
    simp [opTouchesDirectly] at h
  · intro hatomic
    have h := hatomic.1 (FsOp.openWrite "/tmp/meshmon_crashes.json")
      (by simp [export_crash_to_json])
    simp [opTouchesDirectly] at h

/-- Claim C1 amended: `export_crash_to_json` with a non-empty crash history
serialises to `<path>.tmp`, renames onto `<path>`, and unlinks the temp file
on rename failure, never opening or writing the final path in place; but with
an empty history it writes the empty array directly to the final path, and
`write_quality_json` always writes `/tmp/phone_quality.json` in place with no
temp file and no rename. -/
theorem json_publish_amended :
    (∀ (path content : String) (n : Nat) (renameOk : Bool), 0 < n →
      publishesAtomically (export_crash_to_json true path n true true renameOk content) path) ∧
    (∀ (path content : String) (n : Nat), 0 < n →
      FsOp.unlinkFile (path ++ ".tmp") ∈
        export_crash_to_json true path n true true false content) ∧
    (∀ content : String, write_quality_json true content =
      [FsOp.openWrite qualityJsonPath, FsOp.writeStr qualityJsonPath content,
       FsOp.closeFile qualityJsonPath]) ∧
    (∀ (path content : String), export_crash_to_json true path 0 true true true content =
      [FsOp.openWrite path, FsOp.writeStr path "[]\n", FsOp.closeFile path]) := by
  refine ⟨?_, ?_, fun _ => rfl, fun _ _ => rfl⟩
  · intro path content n renameOk hn
    unfold export_crash_to_json
    rw [if_pos (show (true : Bool) = true from rfl), if_neg (by omega),
        if_pos (show (true : Bool) = true from rfl)]
    have htmp : ((path ++ ".tmp" : String) == path) = false :=
      beq_eq_false_iff_ne.mpr (append_tmp_ne path)
    constructor
    · intro op hop
      rw [List.mem_append] at hop
      rcases hop with h | h
      · simp only [List.mem_cons, List.not_mem_nil, or_false] at h
        rcases h with rfl | rfl | rfl | rfl <;> simp [opTouchesDirectly, htmp]
      · cases renameOk
        · rw [if_neg (by simp)] at h
          simp only [List.mem_singleton] at h
          subst h
          simp [opTouchesDirectly]
        · simp at h
    · intro src dst hmem hdst
      rw [List.mem_append] at hmem
      rcases hmem with h | h
      · simp only [List.mem_cons, List.not_mem_nil, or_false] at h
        rcases h with h | h | h | h
        · exact absurd h (by simp)
        · exact absurd h (by simp)
        · exact absurd h (by simp)
        · exact (FsOp.renameFile.inj h).1
      · cases renameOk <;> simp at h
  · intro path content n hn
    unfold export_crash_to_json
    rw [if_pos (show (true : Bool) = true from rfl), if_neg (by omega),
        if_pos (show (true : Bool) = true from rfl)]
    simp

/-- Witness for `json_publish_amended`: the atomic branch at a concrete
non-empty history. -/
theorem json_publish_amended_witness :
    (0 : Nat) < 1 ∧
    publishesAtomically
      (export_crash_to_json true "/tmp/meshmon_crashes.json" 1 true true true "x")
      "/tmp/meshmon_crashes.json" :=
  ⟨Nat.one_pos, json_publish_amended.1 "/tmp/meshmon_crashes.json" "x" 1 true Nat.one_pos⟩

/-! ## C3 — cache format and round trip -/

theorem digitOfNat_toNat (n : Nat) : (digitOfNat n).toNat = n % 10 + 48 := by
  unfold digitOfNat
  have h : n % 10 < 10 := Nat.mod_lt _ (by omega)
  generalize hgen : n % 10 = k at h ⊢
  interval_cases k <;> decide

theorem digitOfNat_isDigit (n : Nat) : isDigitChar (digitOfNat n) = true := by
  unfold digitOfNat isDigitChar
  have h : n % 10 < 10 := Nat.mod_lt _ (by omega)
  generalize hgen : n % 10 = k at h ⊢
  interval_cases k <;> decide

theorem digitsVal_snoc (xs : List Char) (c : Char) :
    digitsVal (xs ++ [c]) = digitsVal xs * 10 + (c.toNat - 48) := by
  unfold digitsVal
  rw [List.foldl_append]
  simp only [List.foldl_cons, List.foldl_nil]

theorem natDigitsRevAux_spec : ∀ (fuel n : Nat), n < fuel →
    digitsVal (natDigitsRevAux fuel n).reverse = n ∧
    (natDigitsRevAux fuel n).all isDigitChar = true ∧
    natDigitsRevAux fuel n ≠ []
  | 0, n, h => absurd h (Nat.not_lt_zero n)
  | fuel + 1, n, h => by
    unfold natDigitsRevAux
    by_cases h10 : n < 10
    · rw [if_pos h10]
      refine ⟨?_, ?_, by simp⟩
      · show digitsVal [digitOfNat n] = n
        unfold digitsVal
        simp only [List.foldl_cons, List.foldl_nil]
        rw [digitOfNat_toNat]
        omega
      · simp [digitOfNat_isDigit]
    · rw [if_neg h10]
      have hdiv : n / 10 < n := Nat.div_lt_self (by omega) (by omega)
      obtain ⟨ih1, ih2, -⟩ := natDigitsRevAux_spec fuel (n / 10) (by omega)
      refine ⟨?_, ?_, by simp⟩
      · rw [List.reverse_cons, digitsVal_snoc, ih1, digitOfNat_toNat]
        omega
      · simp [List.all_cons, digitOfNat_isDigit, ih2]

theorem natDecimal_spec (n : Nat) :
    digitsVal (natDecimal n) = n ∧ (natDecimal n).all isDigitChar = true ∧
    natDecimal n ≠ [] := by
  obtain ⟨h1, h2, h3⟩ := natDigitsRevAux_spec (n + 1) n (Nat.lt_succ_self n)
  refine ⟨h1, ?_, ?_⟩
  · rw [natDecimal, List.all_reverse]
    exact h2
  · rw [natDecimal]
    simpa [List.reverse_eq_nil_iff] using h3

theorem takeWhile_all (p : Char → Bool) (l : List Char) (h : l.all p = true) :
    l.takeWhile p = l := by
  induction l with
  | nil => rfl
  | cons c l ih =>
    rw [List.all_cons, Bool.and_eq_true] at h
    rw [List.takeWhile_cons, if_pos h.1, ih h.2]

theorem parseNatDigits_natDecimal (n : Nat) : parseNatDigits (natDecimal n) = some n := by
  obtain ⟨h1, h2, h3⟩ := natDecimal_spec n
  unfold parseNatDigits
  rw [takeWhile_all _ _ h2, if_neg (by simpa [List.isEmpty_iff] using h3), h1]

theorem natDecimal_head (n : Nat) :
    ∃ d ds, natDecimal n = d :: ds ∧ isDigitChar d = true := by
  obtain ⟨-, h2, h3⟩ := natDecimal_spec n
  cases hnd : natDecimal n with
  | nil => exact absurd hnd h3
  | cons d ds =>
    refine ⟨d, ds, rfl, ?_⟩
    rw [hnd, List.all_cons, Bool.and_eq_true] at h2
    exact h2.1

theorem isDigitChar_ne (c : Char) (h : isDigitChar c = true) :
    isSpaceChar c = false ∧ c ≠ '-' ∧ c ≠ '+' ∧ c ≠ ',' ∧ c ≠ '\n' := by
  refine ⟨?_, ?_, ?_, ?_, ?_⟩
  · have hs : c ≠ ' ' := by rintro rfl; exact absurd h (by decide)
    have ht : c ≠ '\t' := by rintro rfl; exact absurd h (by decide)
    have hn : c ≠ '\n' := by rintro rfl; exact absurd h (by decide)
    have hr : c ≠ '\r' := by rintro rfl; exact absurd h (by decide)
    have hv : c ≠ '\x0b' := by rintro rfl; exact absurd h (by decide)
    have hf : c ≠ '\x0c' := by rintro rfl; exact absurd h (by decide)
    unfold isSpaceChar
    simp [Bool.or_eq_false_iff, beq_eq_false_iff_ne, hs, ht, hn, hr, hv, hf]
  · rintro rfl; exact absurd h (by decide)
  · rintro rfl; exact absurd h (by decide)
  · rintro rfl; exact absurd h (by decide)
  · rintro rfl; exact absurd h (by decide)

theorem parseLongFrom_cons (c : Char) (rest : List Char) (hns : isSpaceChar c = false) :
    parseLongFrom (c :: rest) =
      (if c = '-' then (parseNatDigits rest).map (fun n => -(n : Int))
       else if c = '+' then (parseNatDigits rest).map (fun n => (n : Int))
       else (parseNatDigits (c :: rest)).map (fun n => (n : Int))) := by
  unfold parseLongFrom
  rw [List.dropWhile_cons, if_neg (by simp [hns])]

theorem parseLongFrom_longDecimal (i : Int) : parseLongFrom (longDecimal i) = some i := by
  by_cases hneg : i < 0
  · rw [longDecimal, if_pos hneg, parseLongFrom_cons '-' _ (by decide), if_pos rfl,
        parseNatDigits_natDecimal]
    show some (-(i.natAbs : Int)) = some i
    congr 1
    omega
  · obtain ⟨d, ds, hd, hdig⟩ := natDecimal_head i.toNat
    obtain ⟨hns, hm, hp, -, -⟩ := isDigitChar_ne d hdig
    rw [longDecimal, if_neg hneg, hd, parseLongFrom_cons d ds hns, if_neg hm, if_neg hp, ← hd,
        parseNatDigits_natDecimal]
    show some ((i.toNat : Int)) = some i
    congr 1
    omega

theorem takeWhile_append_stop (p : Char → Bool) (xs : List Char) (y : Char) (ys : List Char) :
    (∀ x ∈ xs, p x = true) → p y = false →
    (xs ++ y :: ys).takeWhile p = xs ∧ (xs ++ y :: ys).dropWhile p = y :: ys := by
  induction xs with
  | nil =>
    intro _ hy
    constructor
    · rw [List.nil_append, List.takeWhile_cons, if_neg (by simp [hy])]
    · rw [List.nil_append, List.dropWhile_cons, if_neg (by simp [hy])]
  | cons c xs ih =>
    intro hall hy
    have hc : p c = true := hall c (List.mem_cons_self c xs)
    have hrest : ∀ x ∈ xs, p x = true := fun x hx => hall x (List.mem_cons_of_mem c hx)
    obtain ⟨ih1, ih2⟩ := ih hrest hy
    constructor
    · rw [List.cons_append, List.takeWhile_cons, if_pos hc, ih1]
    · rw [List.cons_append, List.dropWhile_cons, if_pos hc, ih2]

theorem scanCacheLine_cacheLine (ip node : List Char) (ts : Int)
    (hip : ip ≠ []) (hnode : node ≠ [])
    (hipc : ∀ c ∈ ip, (c != ',') = true) (hnodec : ∀ c ∈ node, (c != ',') = true) :
    scanCacheLine (ip ++ ',' :: (node ++ ',' :: longDecimal ts)) = some (ip, node, ts) := by
  obtain ⟨ht1, hd1⟩ :=
    takeWhile_append_stop (· != ',') ip ',' (node ++ ',' :: longDecimal ts) hipc (by decide)
  obtain ⟨ht2, hd2⟩ :=
    takeWhile_append_stop (· != ',') node ',' (longDecimal ts) hnodec (by decide)
  have hipE : ip.isEmpty = false := by
    cases ip with
    | nil => exact absurd rfl hip
    | cons _ _ => rfl
  have hnodeE : node.isEmpty = false := by
    cases node with
    | nil => exact absurd rfl hnode
    | cons _ _ => rfl
  unfold scanCacheLine
  simp only [ht1, hd1, ht2, hd2, hipE, hnodeE, Bool.false_eq_true, if_false,
    parseLongFrom_longDecimal, Option.map_some']

theorem agentOfLine_cacheLine (a : DiscoveredAgent)
    (hip : a.ip.data ≠ []) (hnode : a.node.data ≠ [])
    (hipc : ∀ c ∈ a.ip.data, (c != ',') = true)
    (hnodec : ∀ c ∈ a.node.data, (c != ',') = true)
    (hiplen : a.ip.data.length ≤ 15) (hnodelen : a.node.data.length ≤ 63)
    (hact : a.isActive = true) :
    agentOfLine (cacheLine a) = some a := by
  unfold agentOfLine cacheLine
  rw [scanCacheLine_cacheLine a.ip.data a.node.data a.lastSeen hip hnode hipc hnodec]
  have hrec : DiscoveredAgent.mk ⟨List.take 15 a.ip.data⟩ ⟨List.take 63 a.node.data⟩
      a.lastSeen true = a := by
    rw [List.take_of_length_le hiplen, List.take_of_length_le hnodelen]
    obtain ⟨ip, node, ts, act⟩ := a
    simp only at hact
    subst hact
    rfl
  exact congrArg some hrec

theorem not_digit_not_mem_natDecimal (c : Char) (hc : isDigitChar c = false) (n : Nat) :
    c ∉ natDecimal n := by
  intro hmem
  obtain ⟨-, h2, -⟩ := natDecimal_spec n
  rw [List.all_eq_true] at h2
  rw [h2 c hmem] at hc
  exact Bool.noConfusion hc

theorem longDecimal_no_newline (i : Int) : '\n' ∉ longDecimal i := by
  unfold longDecimal
  split
  · intro hmem
    rw [List.mem_cons] at hmem
    rcases hmem with h | h
    · exact absurd h (by decide)
    · exact not_digit_not_mem_natDecimal '\n' (by decide) _ h
  · exact not_digit_not_mem_natDecimal '\n' (by decide) _

theorem cacheLine_no_newline (a : DiscoveredAgent)
    (hip : '\n' ∉ a.ip.data) (hnode : '\n' ∉ a.node.data) :
    '\n' ∉ cacheLine a := by
  unfold cacheLine
  intro hmem
  rw [List.mem_append] at hmem
  rcases hmem with h | h
  · exact hip h
  · rw [List.mem_cons] at h
    rcases h with h | h
    · exact absurd h.symm (by decide)
    · rw [List.mem_append] at h
      rcases h with h | h
      · exact hnode h
      · rw [List.mem_cons] at h
        rcases h with h | h
        · exact absurd h.symm (by decide)
        · exact longDecimal_no_newline a.lastSeen h

theorem splitLines_append (xs : List Char) (rest : List Char) (h : '\n' ∉ xs) :
    splitLines (xs ++ '\n' :: rest) = xs :: splitLines rest := by
  induction xs with
  | nil =>
    rw [List.nil_append]
    conv_lhs => rw [splitLines]
    rw [if_pos rfl]
  | cons c xs ih =>
    have hc : c ≠ '\n' := fun hcc => h (hcc ▸ List.mem_cons_self c xs)
    have hxs : '\n' ∉ xs := fun hm => h (List.mem_cons_of_mem c hm)
    rw [List.cons_append]
    conv_lhs => rw [splitLines]
    rw [if_neg hc, ih hxs]

theorem splitLines_save (cache : List DiscoveredAgent)
    (h : ∀ a ∈ cache, ('\n' ∉ a.ip.data) ∧ ('\n' ∉ a.node.data)) :
    splitLines (save_agent_cache cache) = cache.map cacheLine ++ [[]] := by
  induction cache with
  | nil => rfl
  | cons a cache ih =>
    obtain ⟨ha1, ha2⟩ := h a (List.mem_cons_self a cache)
    have hrest : ∀ b ∈ cache, ('\n' ∉ b.ip.data) ∧ ('\n' ∉ b.node.data) :=
      fun b hb => h b (List.mem_cons_of_mem a hb)
    show splitLines (cacheLine a ++ '\n' :: save_agent_cache cache) = _
    rw [splitLines_append _ _ (cacheLine_no_newline a ha1 ha2), ih hrest]
    rfl

theorem filterMap_cacheLines (cache : List DiscoveredAgent)
    (h : ∀ a ∈ cache, agentOfLine (cacheLine a) = some a) :
    (cache.map cacheLine ++ [[]]).filterMap agentOfLine = cache := by
  induction cache with
  | nil => rfl
  | cons a cache ih =>
    have ha := h a (List.mem_cons_self a cache)
    have hrest : ∀ b ∈ cache, agentOfLine (cacheLine b) = some b :=
      fun b hb => h b (List.mem_cons_of_mem a hb)
    show List.filterMap agentOfLine (cacheLine a :: (cache.map cacheLine ++ [[]])) = a :: cache
    rw [List.filterMap_cons, ha, ih hrest]

/-- Counterexample to claim C3 as stated: `save_agent_cache` writes
three-field lines `ip,node,epoch` (no `lan_ip` field exists), and a four-field
line `mesh_ip,lan_ip,node,epoch` is rejected by `load_agent_cache`, because
`sscanf` finds no number in its third field. -/
theorem cache_format_counterexample :
    save_agent_cache [⟨"10.1.2.3", "nodeA", 1700000000, true⟩] =
      "10.1.2.3,nodeA,1700000000\n".data ∧
    load_agent_cache "10.1.2.3,10.1.2.1,nodeA,1700000000\n".data = [] := by
  constructor
  · decide
  · decide

/-- Claim C3 amended: the discovery cache persists entries as three-field CSV
lines `ip,node,last_seen_epoch` (there is no `lan_ip` field); on load only
this three-field format is accepted (four-field lines are skipped); and a
save-then-load round trip of the cache is the identity for every cache of at
most `MAX_DISCOVERED_AGENTS` active entries whose fields are nonempty, free of
commas and newlines, and within the `strncpy` bounds (15 characters for the
address, 63 for the node label). -/
theorem cache_roundtrip_amended (cache : List DiscoveredAgent)
    (hlen : cache.length ≤ MAX_DISCOVERED_AGENTS)
    (hwf : ∀ a ∈ cache,
      a.ip.data ≠ [] ∧ a.node.data ≠ [] ∧
      a.ip.data.length ≤ 15 ∧ a.node.data.length ≤ 63 ∧
      (∀ c ∈ a.ip.data, c ≠ ',' ∧ c ≠ '\n') ∧
      (∀ c ∈ a.node.data, c ≠ ',' ∧ c ≠ '\n') ∧
      a.isActive = true) :
    load_agent_cache (save_agent_cache cache) = cache := by
  unfold load_agent_cache
  rw [splitLines_save cache (fun a ha =>
    ⟨fun hm => ((hwf a ha).2.2.2.2.1 '\n' hm).2 rfl,
     fun hm => ((hwf a ha).2.2.2.2.2.1 '\n' hm).2 rfl⟩)]
  rw [filterMap_cacheLines cache (fun a ha => by
    obtain ⟨h1, h2, h3, h4, h5, h6, h7⟩ := hwf a ha
    exact agentOfLine_cacheLine a h1 h2
      (fun c hc => bne_iff_ne.mpr (h5 c hc).1)
      (fun c hc => bne_iff_ne.mpr (h6 c hc).1) h3 h4 h7)]
  exact List.take_of_length_le hlen

/-- Witness for `cache_roundtrip_amended` at a concrete two-entry cache. -/
theorem cache_roundtrip_amended_witness :
    load_agent_cache (save_agent_cache
      [⟨"10.1.2.3", "nodeA", 1700000000, true⟩, ⟨"10.4.5.6", "nodeB", 1700000001, true⟩]) =
      [⟨"10.1.2.3", "nodeA", 1700000000, true⟩, ⟨"10.4.5.6", "nodeB", 1700000001, true⟩] := by
  exact cache_roundtrip_amended
    [⟨"10.1.2.3", "nodeA", 1700000000, true⟩, ⟨"10.4.5.6", "nodeB", 1700000001, true⟩]
    (by decide) (by decide)

end AREDNPhonebook
